import Mathlib

/-!
Verification of the YAML module's value-model conversion
(`go/yamlmodule/yamlmodule.go`): decoding a parsed generic dynamic value
into the scripting runtime's value model, and encoding a runtime value
back to YAML text through a JSON canonicalization hop.

The generic dynamic value is the Go `interface{}` tree produced by
`yaml.Unmarshal`: null, bool, signed and unsigned integers, IEEE doubles,
strings, slices, and maps with `interface{}` keys.  The runtime value is
the Starlark value model: `None`, `Bool`, arbitrary-precision `Int`,
`Float`, `String`, `List`, `Dict`.  Floats never have their payload
inspected by this module, so a float is carried as its IEEE-754 bit
pattern (a `Nat`), which the conversions preserve verbatim.
-/

namespace YamlModule

mutual

/-- A generic dynamic value, the Go `interface{}` tree a YAML parse
produces: `Null | Bool | Int | Uint | Float | String | List | Map`.
Map keys are themselves dynamic values.  `int` carries a value of any
signed Go width (the Go side stores at most an `int64`), `uint` any
unsigned width, and `float` the bit pattern of an IEEE double. -/
inductive DynValue : Type where
| null : DynValue
| bool : Bool → DynValue
| int : Int → DynValue
| uint : Nat → DynValue
| float : Nat → DynValue
| str : String → DynValue
| list : DynList → DynValue
| map : DynMap → DynValue

/-- An ordered sequence of dynamic values (a Go `[]interface{}`). -/
inductive DynList : Type where
| nil : DynList
| cons : DynValue → DynList → DynList

/-- The entries of a Go `map[interface{}]interface{}`, in the (arbitrary
but fixed) order the Go range loop visits them. -/
inductive DynMap : Type where
| nil : DynMap
| cons : DynValue → DynValue → DynMap → DynMap

end

mutual

/-- A Starlark runtime value: `None`, `Bool`, arbitrary-precision `Int`,
`Float` (bit pattern), `String`, `List`, `Dict` (insertion-ordered). -/
inductive SkyValue : Type where
| none : SkyValue
| bool : Bool → SkyValue
| int : Int → SkyValue
| float : Nat → SkyValue
| str : String → SkyValue
| list : SkyList → SkyValue
| dict : SkyDict → SkyValue

/-- The elements of a `starlark.List`, in order. -/
inductive SkyList : Type where
| nil : SkyList
| cons : SkyValue → SkyList → SkyList

/-- The entries of a `starlark.Dict`, in insertion order. -/
inductive SkyDict : Type where
| nil : SkyDict
| cons : SkyValue → SkyValue → SkyDict → SkyDict

end

mutual

/-- Starlark value equality (`starlark.Equal`) restricted to the kinds
this module constructs; compound values compare structurally and floats
by bit pattern. -/
def skyBeq : SkyValue → SkyValue → Bool
| .none, .none => true
| .bool a, .bool b => a == b
| .int a, .int b => a == b
| .float a, .float b => a == b
| .str a, .str b => a == b
| .list a, .list b => skyListBeq a b
| .dict a, .dict b => skyDictBeq a b
| _, _ => false

/-- Elementwise equality of Starlark lists. -/
def skyListBeq : SkyList → SkyList → Bool
| .nil, .nil => true
| .cons a as, .cons b bs => skyBeq a b && skyListBeq as bs
| _, _ => false

/-- Entrywise equality of Starlark dicts. -/
def skyDictBeq : SkyDict → SkyDict → Bool
| .nil, .nil => true
| .cons k v rest, .cons k' v' rest' => skyBeq k k' && skyBeq v v' && skyDictBeq rest rest'
| _, _ => false

end

/-- `starlark.Dict.SetKey`: if an equal key is already present its value
is updated in place (insertion position kept), otherwise the new entry is
appended.  On a fresh unfrozen dict with hashable keys — the only way the
decoder uses it — `SetKey` cannot fail, so it is total here. -/
def setKey : SkyDict → SkyValue → SkyValue → SkyDict
| .nil, k, v => .cons k v .nil
| .cons k' v' rest, k, v =>
    if skyBeq k' k then .cons k v rest else .cons k' v' (setKey rest k v)

/-- The `reflect.Kind` string of a compound Go value, as `rt.Kind()`
prints it in the conversion error messages. -/
def goKind : DynValue → String
| .map _ => "map"
| .list _ => "slice"
| .null => "invalid"
| .bool _ => "bool"
| .int _ => "int"
| .uint _ => "uint"
| .float _ => "float64"
| .str _ => "string"

/-- Errors from the dynamic-value → Starlark conversion.  Each error
carries the kind string `rt.Kind()` and the value `obj` that the Go code
formats with `%v` into the message — the value the failing call was
invoked on, not any subterm of it. -/
inductive ConvError : Type where
| unsupportedKeyType : String → DynValue → ConvError
| unsupportedType : String → DynValue → ConvError

/-- `toStarlarkScalarValue`: converts a scalar dynamic value to its
Starlark value; `none` when the value is not a scalar.  Go dispatches on
the reflected kind: any signed width goes through `MakeInt64(v.Int())`,
any unsigned width through `MakeUint64(v.Uint())` — both exact, both
producing a Starlark `Int`. -/
def toStarlarkScalarValue : DynValue → Option SkyValue
| .null => some .none
| .int i => some (.int i)
| .uint n => some (.int n)
| .bool b => some (.bool b)
| .float f => some (.float f)
| .str s => some (.str s)
| .list _ => none
| .map _ => none

mutual

/-- `toStarlarkValue`: the DFS walk translating a dynamic value tree to a
Starlark value.  Scalars go through `toStarlarkScalarValue`; maps and
slices recurse; any other reflected kind would fall to the
"not a supported type" error (unreachable from a YAML parse). -/
def toStarlarkValue : DynValue → Except ConvError SkyValue
| .list xs =>
    match convSlice xs with
    | .error e => .error e
    | .ok vs => .ok (.list vs)
| .map es =>
    match convMap (.map es) es .nil with
    | .error e => .error e
    | .ok d => .ok (.dict d)
| v =>
    match toStarlarkScalarValue v with
    | some sv => .ok sv
    | Option.none => .error (.unsupportedType (goKind v) v)

/-- The map branch of `toStarlarkValue`: the range loop over the map's
entries.  `whole` is the map value `obj` being converted, which the
error message reports.  Each key must convert by the scalar-only path;
each value converts recursively; the pair is inserted with `SetKey`. -/
def convMap (whole : DynValue) : DynMap → SkyDict → Except ConvError SkyDict
| .nil, acc => .ok acc
| .cons k v rest, acc =>
    match toStarlarkScalarValue k with
    | Option.none => .error (.unsupportedKeyType (goKind whole) whole)
    | some keyval =>
        match toStarlarkValue v with
        | .error e => .error e
        | .ok starval => convMap whole rest (setKey acc keyval starval)

/-- The slice branch of `toStarlarkValue`: each element converts
recursively, in order, failing fast on the first error. -/
def convSlice : DynList → Except ConvError SkyList
| .nil => .ok .nil
| .cons x rest =>
    match toStarlarkValue x with
    | .error e => .error e
    | .ok v =>
        match convSlice rest with
        | .error e => .error e
        | .ok vs => .ok (.cons v vs)

end

/-! ### Conversions between the Lean `List` type and the mutual list types,
plus small observers used to state properties.  These are statement
vocabulary, not part of the embedded program. -/

/-- Build a `DynList` from a Lean list. -/
def DynList.ofList : List DynValue → DynList
| [] => .nil
| x :: xs => .cons x (DynList.ofList xs)

/-- Build a `SkyList` from a Lean list. -/
def SkyList.ofList : List SkyValue → SkyList
| [] => .nil
| x :: xs => .cons x (SkyList.ofList xs)

/-- Concatenation of map-entry sequences. -/
def DynMap.append : DynMap → DynMap → DynMap
| .nil, es => es
| .cons k v rest, es => .cons k v (DynMap.append rest es)

/-- Concatenation of dict-entry sequences. -/
def SkyDict.append : SkyDict → SkyDict → SkyDict
| .nil, es => es
| .cons k v rest, es => .cons k v (SkyDict.append rest es)

/-- Whether a dict already holds an entry whose key equals `k`. -/
def dictHasKey : SkyDict → SkyValue → Bool
| .nil, _ => false
| .cons k' _ rest, k => skyBeq k' k || dictHasKey rest k

/-- Whether some entry of the map has a key the scalar-only path rejects
(a list or map key). -/
def hasBadKey : DynMap → Bool
| .nil => false
| .cons k _ rest => (toStarlarkScalarValue k).isNone || hasBadKey rest

/-- Whether a single dynamic value converts successfully. -/
def convOk (v : DynValue) : Bool :=
  match toStarlarkValue v with
  | .ok _ => true
  | .error _ => false

/-- Whether every entry of the map converts successfully: scalar key and
convertible value. -/
def mapEntriesOk : DynMap → Bool
| .nil => true
| .cons k v rest => (toStarlarkScalarValue k).isSome && convOk v && mapEntriesOk rest

/-- Whether a runtime value is a Starlark string. -/
def isStr : SkyValue → Bool
| .str _ => true
| _ => false

mutual

/-- The runtime values the round-trip claim ranges over: built only from
scalars, lists, and dicts whose keys are strings and pairwise distinct
(as every real `starlark.Dict` is). -/
def wfSky : SkyValue → Bool
| .list xs => wfSkyList xs
| .dict d => wfSkyDict d
| _ => true

/-- Every element well-formed. -/
def wfSkyList : SkyList → Bool
| .nil => true
| .cons v rest => wfSky v && wfSkyList rest

/-- Every key a string not repeated later, every value well-formed. -/
def wfSkyDict : SkyDict → Bool
| .nil => true
| .cons k v rest => isStr k && !dictHasKey rest k && wfSky v && wfSkyDict rest

end

mutual

/-- Modelled from the spec: the generic dynamic value obtained by
JSON-encoding a supported runtime value and reparsing the bytes (spec
§4.2 steps 1–2, §8 round-trip property).  The JSON writer `writeJSON` and
the YAML parser are outside `src/`; on the supported subset they are
structure-preserving, sending `None` to null, ints to integers, floats to
floats, strings to strings, lists to lists and dicts to maps. -/
def skyToDyn : SkyValue → DynValue
| .none => .null
| .bool b => .bool b
| .int i => .int i
| .float f => .float f
| .str s => .str s
| .list xs => .list (skyListToDyn xs)
| .dict d => .map (skyDictToDyn d)

/-- Elementwise image of a runtime list under `skyToDyn`. -/
def skyListToDyn : SkyList → DynList
| .nil => .nil
| .cons v rest => .cons (skyToDyn v) (skyListToDyn rest)

/-- Entrywise image of a runtime dict under `skyToDyn`. -/
def skyDictToDyn : SkyDict → DynMap
| .nil => .nil
| .cons k v rest => .cons (skyToDyn k) (skyToDyn v) (skyDictToDyn rest)

end

/-! ### The module surface: entry points and external collaborators. -/

/-- The external codecs the module calls, abstract here because they live
outside this package: `yaml.Unmarshal`, `yaml.Marshal`, and the JSON
writer used by encode (`writeJSON`, repository code not under `src/`,
modelled from the spec as an opaque encoder that can fail). -/
structure Collaborators where
  yamlUnmarshal : String → Except String DynValue
  yamlMarshal : DynValue → Except String String
  jsonEncode : SkyValue → Except String String

/-- An error escaping an entry point; the constructors tag which step of
the Go code produced the underlying `error` value. -/
inductive CallError : Type where
| argError : String → CallError
| yamlError : String → CallError
| jsonError : String → CallError
| convError : ConvError → CallError

/-- The Starlark type name of a value, as argument-unpacking errors print
it. -/
def skyTypeName : SkyValue → String
| .none => "NoneType"
| .bool _ => "bool"
| .int _ => "int"
| .float _ => "float"
| .str _ => "string"
| .list _ => "list"
| .dict _ => "dict"

/-- Modelled from the external `go.starlark.net` library:
`starlark.UnpackPositionalArgs(fnname, args, kwargs, 1, &v)` with one
variable.  It rejects non-empty `kwargs`, then checks the argument count
against min = max = 1, then yields the single argument. -/
def unpackPositionalArgs1 (fnname : String) (args : List SkyValue)
    (kwargs : List (String × SkyValue)) : Except String SkyValue :=
  if kwargs.length > 0 then
    .error (fnname ++ ": unexpected keyword arguments")
  else
    match args with
    | [a] => .ok a
    | _ => .error (fnname ++ ": got " ++ toString args.length ++ " arguments, want 1")

/-- Modelled from the external `go.starlark.net` library: unpacking into
a `*string` variable additionally requires the argument to be a Starlark
string. -/
def unpackPositionalArgs1String (fnname : String) (args : List SkyValue)
    (kwargs : List (String × SkyValue)) : Except String String :=
  match unpackPositionalArgs1 fnname args kwargs with
  | .error e => .error e
  | .ok (.str s) => .ok s
  | .ok v => .error (fnname ++ ": for parameter 1: got " ++ skyTypeName v ++ ", want string")

/-- `yamlDecode`: unpack the one string argument, parse it with
`yaml.Unmarshal`, convert the inflated value with `toStarlarkValue`.
The source passes `nil` — not its `kwargs` parameter — as the kwargs
argument of `UnpackPositionalArgs`, so the model passes `[]` there and
the caller's `kwargs` go unexamined. -/
def yamlDecode (c : Collaborators) (args : List SkyValue)
    (kwargs : List (String × SkyValue)) : Except CallError SkyValue :=
  match unpackPositionalArgs1String "yaml.decode" args [] with
  | .error e => .error (.argError e)
  | .ok blob =>
    match c.yamlUnmarshal blob with
    | .error e => .error (.yamlError e)
    | .ok inflated =>
      match toStarlarkValue inflated with
      | .error e => .error (.convError e)
      | .ok v => .ok v

/-- `yamlEncode`: unpack the one argument (any value), JSON-encode it,
reparse the bytes with `yaml.Unmarshal`, re-serialize with
`yaml.Marshal`, and return the YAML text as a Starlark string.  As in
`yamlDecode`, the source passes `nil` for the kwargs of
`UnpackPositionalArgs`. -/
def yamlEncode (c : Collaborators) (args : List SkyValue)
    (kwargs : List (String × SkyValue)) : Except CallError SkyValue :=
  match unpackPositionalArgs1 "yaml.encode" args [] with
  | .error e => .error (.argError e)
  | .ok v =>
    match c.jsonEncode v with
    | .error e => .error (.jsonError e)
    | .ok buf =>
      match c.yamlUnmarshal buf with
      | .error e => .error (.yamlError e)
      | .ok jsonObj =>
        match c.yamlMarshal jsonObj with
        | .error e => .error (.yamlError e)
        | .ok yamlBytes => .ok (.str yamlBytes)

/-- `NewModule`: the member table of the `yaml` module.  `decode` and
`encode` are the two builtins; `marshal` and `unmarshal` are the
deprecated aliases bound to the very same callables. -/
def newModule (c : Collaborators) :
    String → Option (List SkyValue → List (String × SkyValue) → Except CallError SkyValue) :=
  fun name =>
    if name = "decode" then some (yamlDecode c)
    else if name = "encode" then some (yamlEncode c)
    else if name = "marshal" then some (yamlEncode c)
    else if name = "unmarshal" then some (yamlDecode c)
    else Option.none

/-- Written from the spec's words, for comparison with `yamlEncode`:
`encode(value) = YAMLSerialize(YAMLParse(JSONEncode(value)))`, each step
propagating its failure with no recovery and no output. -/
def encodeSpec (c : Collaborators) (v : SkyValue) : Except CallError SkyValue :=
  match c.jsonEncode v with
  | .error e => .error (.jsonError e)
  | .ok buf =>
    match c.yamlUnmarshal buf with
    | .error e => .error (.yamlError e)
    | .ok d =>
      match c.yamlMarshal d with
      | .error e => .error (.yamlError e)
      | .ok yamlBytes => .ok (.str yamlBytes)

/-- A trivial concrete instantiation of the external codecs, used to
evaluate the entry points on closed inputs. -/
def trivialCollab : Collaborators where
  yamlUnmarshal := fun _ => .ok .null
  yamlMarshal := fun _ => .ok ""
  jsonEncode := fun _ => .ok ""

/-! ### Lemmas about equality, `setKey`, and the dict helpers. -/

theorem beqSymm {α : Type} [BEq α] [LawfulBEq α] (a b : α) : (a == b) = (b == a) := by
  by_cases h : a = b
  · subst h; rfl
  · have h1 : (a == b) = false := by simpa using h
    have h2 : (b == a) = false := by simpa using (Ne.symm h)
    rw [h1, h2]

mutual

theorem skyBeq_refl : ∀ a : SkyValue, skyBeq a a = true
| .none => rfl
| .bool b => by simp [skyBeq]
| .int i => by simp [skyBeq]
| .float f => by simp [skyBeq]
| .str s => by simp [skyBeq]
| .list xs => by simp [skyBeq, skyListBeq_refl xs]
| .dict d => by simp [skyBeq, skyDictBeq_refl d]

theorem skyListBeq_refl : ∀ xs : SkyList, skyListBeq xs xs = true
| .nil => rfl
| .cons v rest => by simp [skyListBeq, skyBeq_refl v, skyListBeq_refl rest]

theorem skyDictBeq_refl : ∀ d : SkyDict, skyDictBeq d d = true
| .nil => rfl
| .cons k v rest => by
    simp [skyDictBeq, skyBeq_refl k, skyBeq_refl v, skyDictBeq_refl rest]

end

mutual

theorem skyBeq_symm : ∀ a b : SkyValue, skyBeq a b = skyBeq b a
| .none, b => by cases b <;> simp [skyBeq]
| .bool x, b => by cases b <;> simp [skyBeq, beqSymm]
| .int x, b => by cases b <;> simp [skyBeq, beqSymm]
| .float x, b => by cases b <;> simp [skyBeq, beqSymm]
| .str x, b => by cases b <;> simp [skyBeq, beqSymm]
| .list xs, b => by
    cases b <;> simp [skyBeq]
    case list ys => exact skyListBeq_symm xs ys
| .dict d, b => by
    cases b <;> simp [skyBeq]
    case dict d' => exact skyDictBeq_symm d d'

theorem skyListBeq_symm : ∀ xs ys : SkyList, skyListBeq xs ys = skyListBeq ys xs
| .nil, ys => by cases ys <;> simp [skyListBeq]
| .cons v rest, ys => by
    cases ys <;> simp [skyListBeq]
    case cons w rest' => rw [skyBeq_symm v w, skyListBeq_symm rest rest']

theorem skyDictBeq_symm : ∀ d d' : SkyDict, skyDictBeq d d' = skyDictBeq d' d
| .nil, d' => by cases d' <;> simp [skyDictBeq]
| .cons k v rest, d' => by
    cases d' <;> simp [skyDictBeq]
    case cons k' v' rest' =>
      rw [skyBeq_symm k k', skyBeq_symm v v', skyDictBeq_symm rest rest']

end

theorem SkyDict.append_nil : ∀ d : SkyDict, SkyDict.append d .nil = d
| .nil => rfl
| .cons k v rest => by simp [SkyDict.append, SkyDict.append_nil rest]

theorem SkyDict.append_assoc : ∀ a b c : SkyDict,
    SkyDict.append (SkyDict.append a b) c = SkyDict.append a (SkyDict.append b c)
| .nil, b, c => rfl
| .cons k v rest, b, c => by simp [SkyDict.append, SkyDict.append_assoc rest b c]

theorem dictHasKey_append : ∀ (a b : SkyDict) (k : SkyValue),
    dictHasKey (SkyDict.append a b) k = (dictHasKey a k || dictHasKey b k)
| .nil, b, k => by simp [SkyDict.append, dictHasKey]
| .cons k' v' rest, b, k => by
    simp [SkyDict.append, dictHasKey, dictHasKey_append rest b k, Bool.or_assoc]

/-- Inserting a key that is not yet present appends the entry. -/
theorem setKey_fresh : ∀ (acc : SkyDict) (k v : SkyValue),
    dictHasKey acc k = false → setKey acc k v = SkyDict.append acc (.cons k v .nil)
| .nil, k, v, _ => rfl
| .cons k' v' rest, k, v, h => by
    simp [dictHasKey, Bool.or_eq_false_iff] at h
    simp [setKey, SkyDict.append, h.1, setKey_fresh rest k v h.2]

/-- Every key of `d` is absent from `acc`. -/
def keysFreshIn : SkyDict → SkyDict → Bool
| .nil, _ => true
| .cons k _ rest, acc => !dictHasKey acc k && keysFreshIn rest acc

theorem keysFreshIn_extend : ∀ (rest acc : SkyDict) (k v : SkyValue),
    keysFreshIn rest acc = true → dictHasKey rest k = false →
    keysFreshIn rest (SkyDict.append acc (.cons k v .nil)) = true
| .nil, _, _, _, _, _ => rfl
| .cons k'' v'' rest', acc, k, v, hf, hh => by
    simp [keysFreshIn, Bool.and_eq_true] at hf
    simp [dictHasKey, Bool.or_eq_false_iff] at hh
    have hsymm : skyBeq k k'' = false := by rw [skyBeq_symm]; exact hh.1
    simp [keysFreshIn, dictHasKey_append, dictHasKey, hf.1, hsymm,
      keysFreshIn_extend rest' acc k v hf.2 hh.2]

/-! ### Error shape: the only error the decoder can produce on a
dynamic-value tree is an unsupported-key error (the defensive
"not a supported type" branch is unreachable for the kinds a YAML parse
yields). -/

mutual

theorem toStarlarkValue_err_shape : ∀ (v : DynValue) (e : ConvError),
    toStarlarkValue v = .error e → ∃ kind obj, e = ConvError.unsupportedKeyType kind obj
| .null, e => by simp [toStarlarkValue, toStarlarkScalarValue]
| .bool b, e => by simp [toStarlarkValue, toStarlarkScalarValue]
| .int i, e => by simp [toStarlarkValue, toStarlarkScalarValue]
| .uint n, e => by simp [toStarlarkValue, toStarlarkScalarValue]
| .float f, e => by simp [toStarlarkValue, toStarlarkScalarValue]
| .str s, e => by simp [toStarlarkValue, toStarlarkScalarValue]
| .list xs, e => by
    intro h
    simp only [toStarlarkValue] at h
    cases hs : convSlice xs with
    | error e' =>
        rw [hs] at h
        cases h
        exact convSlice_err_shape xs e hs
    | ok vs => rw [hs] at h; cases h
| .map es, e => by
    intro h
    simp only [toStarlarkValue] at h
    cases hm : convMap (.map es) es .nil with
    | error e' =>
        rw [hm] at h
        cases h
        exact convMap_err_shape (.map es) es .nil e hm
    | ok d => rw [hm] at h; cases h

theorem convMap_err_shape : ∀ (w : DynValue) (es : DynMap) (acc : SkyDict) (e : ConvError),
    convMap w es acc = .error e → ∃ kind obj, e = ConvError.unsupportedKeyType kind obj
| w, .nil, acc, e => by simp [convMap]
| w, .cons k v rest, acc, e => by
    intro h
    simp only [convMap] at h
    cases hk : toStarlarkScalarValue k with
    | none =>
        rw [hk] at h
        cases h
        exact ⟨goKind w, w, rfl⟩
    | some keyval =>
        rw [hk] at h
        cases hv : toStarlarkValue v with
        | error e' =>
            rw [hv] at h
            cases h
            exact toStarlarkValue_err_shape v e hv
        | ok starval =>
            rw [hv] at h
            exact convMap_err_shape w rest (setKey acc keyval starval) e h

theorem convSlice_err_shape : ∀ (xs : DynList) (e : ConvError),
    convSlice xs = .error e → ∃ kind obj, e = ConvError.unsupportedKeyType kind obj
| .nil, e => by simp [convSlice]
| .cons x rest, e => by
    intro h
    simp only [convSlice] at h
    cases hx : toStarlarkValue x with
    | error e' =>
        rw [hx] at h
        cases h
        exact toStarlarkValue_err_shape x e hx
    | ok v =>
        rw [hx] at h
        cases hr : convSlice rest with
        | error e' =>
            rw [hr] at h
            cases h
            exact convSlice_err_shape rest e hr
        | ok vs => rw [hr] at h; cases h

end

/-- A map containing any entry with a non-scalar key fails to convert,
and the failure is an unsupported-key error. -/
theorem convMap_bad : ∀ (w : DynValue) (es : DynMap) (acc : SkyDict), hasBadKey es = true →
    ∃ kind obj, convMap w es acc = .error (.unsupportedKeyType kind obj)
| w, .cons k v rest, acc, h => by
    simp only [convMap]
    cases hk : toStarlarkScalarValue k with
    | none => exact ⟨goKind w, w, rfl⟩
    | some keyval =>
        simp [hasBadKey, hk, Option.isNone] at h
        cases hv : toStarlarkValue v with
        | error e =>
            obtain ⟨kind, obj, rfl⟩ := toStarlarkValue_err_shape v e hv
            exact ⟨kind, obj, rfl⟩
        | ok starval => exact convMap_bad w rest (setKey acc keyval starval) h

/-- If every entry before it converts, a non-scalar key aborts the walk
with an unsupported-key error reporting the value `w` the error formats:
the whole map passed to the call, not the key. -/
theorem convMap_first_bad : ∀ (w : DynValue) (pre : DynMap) (k v : DynValue) (rest : DynMap)
    (acc : SkyDict), mapEntriesOk pre = true → toStarlarkScalarValue k = Option.none →
    convMap w (DynMap.append pre (.cons k v rest)) acc =
      .error (.unsupportedKeyType (goKind w) w)
| w, .nil, k, v, rest, acc, _, hk => by simp [DynMap.append, convMap, hk]
| w, .cons k' v' pre', k, v, rest, acc, hpre, hk => by
    simp only [mapEntriesOk, Bool.and_eq_true] at hpre
    obtain ⟨⟨hk', hv'⟩, hpre'⟩ := hpre
    simp only [DynMap.append, convMap]
    cases hks : toStarlarkScalarValue k' with
    | none => rfl
    | some keyval =>
        cases hvs : toStarlarkValue v' with
        | error e => rw [convOk, hvs] at hv'; cases hv'
        | ok starval =>
            exact convMap_first_bad w pre' k v rest (setKey acc keyval starval) hpre' hk

/-! ### The slice walk: ordered success and fail-fast error. -/

/-- When every element converts (pointwise, in order), the slice walk
returns exactly the converted elements, in order. -/
theorem convSlice_forall2 : ∀ {l : List DynValue} {ws : List SkyValue},
    List.Forall₂ (fun x w => toStarlarkValue x = .ok w) l ws →
    convSlice (DynList.ofList l) = .ok (SkyList.ofList ws) := by
  intro l ws h
  induction h with
  | nil => rfl
  | cons hx _ ih => simp [DynList.ofList, convSlice, hx, ih, SkyList.ofList]

/-- When an element fails, the walk stops at the leftmost failing element
and returns that element's error. -/
theorem convSlice_first_err : ∀ {pre : List DynValue} {ws : List SkyValue}
    (x : DynValue) (post : List DynValue) (e : ConvError),
    List.Forall₂ (fun y w => toStarlarkValue y = .ok w) pre ws →
    toStarlarkValue x = .error e →
    convSlice (DynList.ofList (pre ++ x :: post)) = .error e := by
  intro pre ws x post e h hx
  induction h with
  | nil => simp [DynList.ofList, convSlice, hx]
  | cons hy _ ih => simp [DynList.ofList, convSlice, hy, ih]

/-! ### Round trip: decoding the canonical dynamic form of a supported
runtime value gives back that value. -/

theorem keysFreshIn_nil : ∀ d : SkyDict, keysFreshIn d .nil = true
| .nil => rfl
| .cons k v rest => by simp [keysFreshIn, dictHasKey, keysFreshIn_nil rest]

mutual

theorem roundtrip : ∀ v : SkyValue, wfSky v = true →
    toStarlarkValue (skyToDyn v) = .ok v
| .none, _ => rfl
| .bool b, _ => rfl
| .int i, _ => rfl
| .float f, _ => rfl
| .str s, _ => rfl
| .list xs, h => by
    simp only [skyToDyn, toStarlarkValue]
    rw [roundtripList xs (by simpa [wfSky] using h)]
| .dict d, h => by
    have hm := roundtripDict (.map (skyDictToDyn d)) d .nil (by simpa [wfSky] using h)
      (keysFreshIn_nil d)
    simp [skyToDyn, toStarlarkValue, hm, SkyDict.append]

theorem roundtripList : ∀ xs : SkyList, wfSkyList xs = true →
    convSlice (skyListToDyn xs) = .ok xs
| .nil, _ => rfl
| .cons v rest, h => by
    simp only [wfSkyList, Bool.and_eq_true] at h
    simp [skyListToDyn, convSlice, roundtrip v h.1, roundtripList rest h.2]

theorem roundtripDict : ∀ (w : DynValue) (d : SkyDict) (acc : SkyDict),
    wfSkyDict d = true → keysFreshIn d acc = true →
    convMap w (skyDictToDyn d) acc = .ok (SkyDict.append acc d)
| w, .nil, acc, _, _ => by simp [skyDictToDyn, convMap, SkyDict.append_nil]
| w, .cons k v rest, acc, hwf, hfresh => by
    simp only [wfSkyDict, Bool.and_eq_true] at hwf
    obtain ⟨⟨⟨hstr, hdup⟩, hv⟩, hrest⟩ := hwf
    simp only [keysFreshIn, Bool.and_eq_true] at hfresh
    obtain ⟨hacc, hfresh'⟩ := hfresh
    match k, hstr with
    | .str s, _ =>
      have hk : dictHasKey acc (.str s) = false := by
        cases hval : dictHasKey acc (.str s) with
        | false => rfl
        | true => rw [hval] at hacc; cases hacc
      have hdup' : dictHasKey rest (.str s) = false := by
        cases hval : dictHasKey rest (.str s) with
        | false => rfl
        | true => rw [hval] at hdup; cases hdup
      have hrec := roundtripDict w rest (SkyDict.append acc (.cons (.str s) v .nil)) hrest
        (keysFreshIn_extend rest acc (.str s) v hfresh' hdup')
      simp [skyDictToDyn, skyToDyn, convMap, toStarlarkScalarValue, roundtrip v hv,
        setKey_fresh acc (.str s) v hk, hrec, SkyDict.append_assoc, SkyDict.append]

end

/-! ### Concrete values used to evaluate the claims on closed inputs. -/

/-- The spec's example runtime value `{"hello": ["world"]}`. -/
def exampleValue : SkyValue :=
  .dict (.cons (.str "hello") (.list (.cons (.str "world") .nil)) .nil)

/-- The dynamic value the example round-trips through. -/
def exampleDyn : DynValue := skyToDyn exampleValue

/-- Concrete external codecs consistent with the spec's example: JSON
encoding yields a fixed byte string, both it and the emitted YAML text
parse back to `exampleDyn`. -/
def exampleCollab : Collaborators where
  yamlUnmarshal := fun s =>
    if s = "json-bytes" then .ok exampleDyn
    else if s = "hello:\n- world\n" then .ok exampleDyn
    else .error "yaml: unmarshal errors"
  yamlMarshal := fun _ => .ok "hello:\n- world\n"
  jsonEncode := fun _ => .ok "json-bytes"

/-! ### The claims. -/

/-- Claim C1: every scalar dynamic value (null, bool, any signed or
unsigned integer, float, string) converts to the runtime value of the
corresponding kind with the same underlying value: null to `None`, bools
unchanged, signed and unsigned integers both to the runtime integer of
the exact same value (no narrowing, no coercion to float), floats with
the identical IEEE-double bit pattern, strings byte-for-byte. -/
theorem scalar_conversion_exact : ∀ (b : Bool) (i : Int) (n : Nat) (f : Nat) (s : String),
    toStarlarkValue .null = .ok .none ∧
    toStarlarkValue (.bool b) = .ok (.bool b) ∧
    toStarlarkValue (.int i) = .ok (.int i) ∧
    toStarlarkValue (.uint n) = .ok (.int (n : Int)) ∧
    toStarlarkValue (.float f) = .ok (.float f) ∧
    toStarlarkValue (.str s) = .ok (.str s) :=
  fun _ _ _ _ _ => ⟨rfl, rfl, rfl, rfl, rfl, rfl⟩

/-- Claim C2: a dynamic-value map containing an entry whose key is
non-scalar (list or map kind) fails the whole conversion with an
"unsupported key type" error; no partial mapping is returned. -/
theorem map_bad_key_fails : ∀ es : DynMap, hasBadKey es = true →
    ∃ kind obj, toStarlarkValue (.map es) = .error (.unsupportedKeyType kind obj) := by
  intro es h
  obtain ⟨kind, obj, hm⟩ := convMap_bad (.map es) es .nil h
  exact ⟨kind, obj, by simp [toStarlarkValue, hm]⟩

/-- Witness for C2: the map `{[ ] : "x"}` with a list-typed key fails. -/
theorem map_bad_key_fails_witness :
    hasBadKey (.cons (.list .nil) (.str "x") .nil) = true ∧
    ∃ kind obj, toStarlarkValue (.map (.cons (.list .nil) (.str "x") .nil)) =
      .error (.unsupportedKeyType kind obj) :=
  ⟨rfl, map_bad_key_fails (.cons (.list .nil) (.str "x") .nil) rfl⟩

/-- Claim C3: a dynamic-value list converts each element recursively in
order; when every element converts, the result is the runtime list of
the converted elements, same length and order; when an element fails,
the error of the first (leftmost) failing element of the ordered walk is
returned immediately. -/
theorem list_conversion_ordered : ∀ (l post : List DynValue) (ws : List SkyValue)
    (x : DynValue) (e : ConvError),
    (List.Forall₂ (fun y w => toStarlarkValue y = .ok w) l ws →
      toStarlarkValue (.list (DynList.ofList l)) = .ok (.list (SkyList.ofList ws)) ∧
      ws.length = l.length) ∧
    (List.Forall₂ (fun y w => toStarlarkValue y = .ok w) l ws →
      toStarlarkValue x = .error e →
      toStarlarkValue (.list (DynList.ofList (l ++ x :: post))) = .error e) := by
  intro l post ws x e
  constructor
  · intro h
    exact ⟨by simp [toStarlarkValue, convSlice_forall2 h], h.length_eq.symm⟩
  · intro h hx
    simp [toStarlarkValue, convSlice_first_err x post e h hx]

/-- Witness for C3: `[3]` converts in order, and `[3, {[ ]: "y"}]` fails
with the second element's unsupported-key error. -/
theorem list_conversion_ordered_witness :
    toStarlarkValue (.list (DynList.ofList [DynValue.int 3])) =
      .ok (.list (SkyList.ofList [SkyValue.int 3])) ∧
    toStarlarkValue (.list (DynList.ofList
        ([DynValue.int 3] ++ DynValue.map (.cons (.list .nil) (.str "y") .nil) :: []))) =
      .error (.unsupportedKeyType "map" (.map (.cons (.list .nil) (.str "y") .nil))) :=
  have h : List.Forall₂ (fun y w => toStarlarkValue y = .ok w)
      [DynValue.int 3] [SkyValue.int 3] := .cons rfl .nil
  ⟨((list_conversion_ordered [DynValue.int 3] []
      [SkyValue.int 3] (.map (.cons (.list .nil) (.str "y") .nil))
      (.unsupportedKeyType "map" (.map (.cons (.list .nil) (.str "y") .nil)))).1 h).1,
    (list_conversion_ordered [DynValue.int 3] []
      [SkyValue.int 3] (.map (.cons (.list .nil) (.str "y") .nil))
      (.unsupportedKeyType "map" (.map (.cons (.list .nil) (.str "y") .nil)))).2 h rfl⟩

/-- Claim C4: the encode entry point computes exactly
`YAMLSerialize(YAMLParse(JSONEncode(v)))` — JSON-encode, reparse as a
dynamic value, serialize as YAML — each step's failure failing the whole
call with that step's error, no recovery, no output. -/
theorem encode_is_composition : ∀ (c : Collaborators) (v : SkyValue),
    yamlEncode c [v] [] = encodeSpec c v :=
  fun _ _ => rfl

/-- Counterexample for C5: a call to decode carrying a keyword argument
does not fail with an argument error; the keyword is silently ignored
and the conversion runs (the source passes `nil`, not its `kwargs`, to
`UnpackPositionalArgs`). -/
theorem kwargs_not_rejected :
    yamlDecode trivialCollab [.str ""] [("key", SkyValue.none)] = .ok SkyValue.none := rfl

/-- Claim C5 as amended: both entry points require exactly one positional
argument — zero or more than one fail with an argument error — but
keyword arguments are ignored: the result never depends on them. -/
theorem arity_checked_kwargs_ignored : ∀ (c : Collaborators) (args : List SkyValue)
    (kwargs : List (String × SkyValue)),
    (args.length ≠ 1 →
      (∃ m, yamlDecode c args kwargs = .error (.argError m)) ∧
      (∃ m, yamlEncode c args kwargs = .error (.argError m))) ∧
    yamlDecode c args kwargs = yamlDecode c args [] ∧
    yamlEncode c args kwargs = yamlEncode c args [] := by
  intro c args kwargs
  refine ⟨?_, rfl, rfl⟩
  intro h
  match args with
  | [] => exact ⟨⟨_, rfl⟩, ⟨_, rfl⟩⟩
  | [a] => exact absurd rfl h
  | a :: b :: rest => exact ⟨⟨_, rfl⟩, ⟨_, rfl⟩⟩

/-- Witness for amended C5: the zero-argument call fails on both entry
points. -/
theorem arity_checked_kwargs_ignored_witness :
    (([] : List SkyValue).length ≠ 1) ∧
    (∃ m, yamlDecode trivialCollab [] [] = .error (.argError m)) ∧
    (∃ m, yamlEncode trivialCollab [] [] = .error (.argError m)) :=
  ⟨by decide,
    ((arity_checked_kwargs_ignored trivialCollab [] []).1 (by decide)).1,
    ((arity_checked_kwargs_ignored trivialCollab [] []).1 (by decide)).2⟩

/-- Claim C6: for a runtime value built only from scalars, lists, and
dicts with (distinct) string keys, encoding succeeds and decoding the
emitted YAML text yields a value structurally equal to the original —
stated for any external codecs that are structure-preserving at that
value, as the spec assumes of them. -/
theorem encode_decode_roundtrip : ∀ (c : Collaborators) (x : SkyValue) (js ytext : String),
    wfSky x = true →
    c.jsonEncode x = .ok js →
    c.yamlUnmarshal js = .ok (skyToDyn x) →
    c.yamlMarshal (skyToDyn x) = .ok ytext →
    c.yamlUnmarshal ytext = .ok (skyToDyn x) →
    yamlEncode c [x] [] = .ok (.str ytext) ∧
    yamlDecode c [.str ytext] [] = .ok x := by
  intro c x js ytext hwf h1 h2 h3 h4
  constructor
  · simp [yamlEncode, unpackPositionalArgs1, h1, h2, h3]
  · simp [yamlDecode, unpackPositionalArgs1String, unpackPositionalArgs1, h4, roundtrip x hwf]

/-- Witness for C6: the spec's example `{"hello": ["world"]}` round-trips
through `"hello:\n- world\n"` under the example codecs. -/
theorem encode_decode_roundtrip_witness :
    wfSky exampleValue = true ∧
    exampleCollab.jsonEncode exampleValue = .ok "json-bytes" ∧
    exampleCollab.yamlUnmarshal "json-bytes" = .ok (skyToDyn exampleValue) ∧
    exampleCollab.yamlMarshal (skyToDyn exampleValue) = .ok "hello:\n- world\n" ∧
    exampleCollab.yamlUnmarshal "hello:\n- world\n" = .ok (skyToDyn exampleValue) ∧
    yamlEncode exampleCollab [exampleValue] [] = .ok (.str "hello:\n- world\n") ∧
    yamlDecode exampleCollab [.str "hello:\n- world\n"] [] = .ok exampleValue :=
  ⟨rfl, rfl, rfl, rfl, rfl,
    (encode_decode_roundtrip exampleCollab exampleValue "json-bytes" "hello:\n- world\n"
      rfl rfl rfl rfl rfl).1,
    (encode_decode_roundtrip exampleCollab exampleValue "json-bytes" "hello:\n- world\n"
      rfl rfl rfl rfl rfl).2⟩

/-- Claim C7: the deprecated alias members are the very same callables as
the primary ones: `marshal` is `encode` and `unmarshal` is `decode`, so
every call through an alias gives the same result as through the primary
name. -/
theorem aliases_same_callables : ∀ c : Collaborators,
    newModule c "marshal" = some (yamlEncode c) ∧
    newModule c "encode" = some (yamlEncode c) ∧
    newModule c "unmarshal" = some (yamlDecode c) ∧
    newModule c "decode" = some (yamlDecode c) ∧
    newModule c "marshal" = newModule c "encode" ∧
    newModule c "unmarshal" = newModule c "decode" :=
  fun _ => ⟨rfl, rfl, rfl, rfl, rfl, rfl⟩

/-- Claim C8: text the YAML parser maps to no document (it inflates to
the nil interface) decodes successfully to the runtime `None`, not to an
error or an empty container. -/
theorem decode_empty_none : ∀ (c : Collaborators) (s : String),
    c.yamlUnmarshal s = .ok .null → yamlDecode c [.str s] [] = .ok SkyValue.none := by
  intro c s h
  simp [yamlDecode, unpackPositionalArgs1String, unpackPositionalArgs1, h,
    toStarlarkValue, toStarlarkScalarValue]

/-- Witness for C8: the empty string under a parser that inflates it to
null. -/
theorem decode_empty_none_witness :
    trivialCollab.yamlUnmarshal "" = .ok .null ∧
    yamlDecode trivialCollab [.str ""] [] = .ok SkyValue.none :=
  ⟨rfl, decode_empty_none trivialCollab "" rfl⟩

/-- Claim C9: two distinct dynamic map keys that convert to equal runtime
keys (such as signed 1 and unsigned 1) raise no duplicate-key error: the
later insertion overwrites the earlier and the resulting dict holds a
single entry for that key. -/
theorem duplicate_keys_last_wins : ∀ (k1 k2 v1 v2 : DynValue) (s w1 w2 : SkyValue),
    k1 ≠ k2 →
    toStarlarkScalarValue k1 = some s →
    toStarlarkScalarValue k2 = some s →
    toStarlarkValue v1 = .ok w1 →
    toStarlarkValue v2 = .ok w2 →
    toStarlarkValue (.map (.cons k1 v1 (.cons k2 v2 .nil))) = .ok (.dict (.cons s w2 .nil)) := by
  intro k1 k2 v1 v2 s w1 w2 _ hk1 hk2 hv1 hv2
  simp [toStarlarkValue, convMap, hk1, hk2, hv1, hv2, setKey, skyBeq_refl s]

/-- Witness for C9: `{1 (signed): "a", 1 (unsigned): "b"}` becomes the
one-entry dict `{1: "b"}`. -/
theorem duplicate_keys_last_wins_witness :
    (DynValue.int 1 ≠ DynValue.uint 1) ∧
    toStarlarkValue (.map (.cons (.int 1) (.str "a") (.cons (.uint 1) (.str "b") .nil))) =
      .ok (.dict (.cons (.int 1) (.str "b") .nil)) :=
  ⟨fun h => DynValue.noConfusion h,
    duplicate_keys_last_wins (.int 1) (.uint 1) (.str "a") (.str "b")
      (.int 1) (.str "a") (.str "b")
      (fun h => DynValue.noConfusion h) rfl rfl rfl rfl⟩

/-- Claim C10: the "is not a supported key type" error raised on a
non-scalar map key reports the kind ("map") and the printed value of the
entire containing map — the value the call was made on — not the kind or
value of the offending key. -/
theorem bad_key_error_reports_map : ∀ (pre : DynMap) (k v : DynValue) (rest : DynMap),
    mapEntriesOk pre = true → toStarlarkScalarValue k = Option.none →
    toStarlarkValue (.map (DynMap.append pre (.cons k v rest))) =
      .error (.unsupportedKeyType "map" (.map (DynMap.append pre (.cons k v rest)))) := by
  intro pre k v rest hpre hk
  have h := convMap_first_bad (.map (DynMap.append pre (.cons k v rest)))
    pre k v rest .nil hpre hk
  simp [toStarlarkValue, h, goKind]

/-- Witness for C10: the map `{[ ]: "x"}` yields an error carrying the
whole map, not the list key. -/
theorem bad_key_error_reports_map_witness :
    mapEntriesOk .nil = true ∧
    toStarlarkScalarValue (.list .nil) = Option.none ∧
    toStarlarkValue (.map (DynMap.append .nil (.cons (.list .nil) (.str "x") .nil))) =
      .error (.unsupportedKeyType "map"
        (.map (DynMap.append .nil (.cons (.list .nil) (.str "x") .nil)))) :=
  ⟨rfl, rfl, bad_key_error_reports_map .nil (.list .nil) (.str "x") .nil rfl rfl⟩

end YamlModule
